import Mathlib

/-!
Shallow embedding of the `sava-s3-export` S3-to-local sync tool:
the Parquet-backed record store (`internal/database/parquet.go`) and the
sync engine (`internal/syncer/syncer.go`).  File I/O is abstracted to a
key-indexed record map plus explicit success flags for the fallible
read (`ReadAllRecords`) and write (`WriteRecords`) operations; all other
logic is translated line by line from the Go source.
-/

set_option autoImplicit false

namespace S3Export

/-- One row of the Parquet database (`FileRecord` in parquet.go). -/
structure FileRecord where
  s3Key : String
  eTag : String
  lastModified : Int
  syncStatus : String
  localPath : String
  lastSyncedAt : Int
deriving DecidableEq, Repr

/-- The fields of an S3 listing entry (`types.Object`) that the syncer
dereferences: key, ETag and last-modified time. -/
structure S3Object where
  key : String
  eTag : String
  lastModified : Int
deriving DecidableEq, Repr

/-- The contents of the Parquet file viewed as a key-indexed map, as
`ReadAllRecords` materialises it (`map[string]FileRecord`).  Modelled as an
association list; key uniqueness is stated where a claim needs it. -/
abbrev RecordMap := List (String × FileRecord)

/-- Go map assignment `m[k] = v`: replace the entry for `k` if present,
otherwise add one. -/
def mapInsert : RecordMap → String → FileRecord → RecordMap
  | [], k, v => [(k, v)]
  | p :: rest, k, v => if p.1 = k then (k, v) :: rest else p :: mapInsert rest k v

/-- Go map read `m[k]`. -/
def mapLookup : RecordMap → String → Option FileRecord
  | [], _ => none
  | p :: rest, k => if p.1 = k then some p.2 else mapLookup rest k

/-- The keys of a record map. -/
def keys (m : RecordMap) : List String :=
  m.map Prod.fst

/-- Failure modes of the two store file operations. -/
inductive StoreErr where
  | readErr
  | writeErr
deriving DecidableEq, Repr

deriving instance DecidableEq for Except

/-- The merge loop of `FlushBatch`: `for _, record := range db.batchBuffer
\x7b existingRecords[record.S3Key] = record \x7d`. -/
def applyBatch (store : RecordMap) (updates : List FileRecord) : RecordMap :=
  updates.foldl (fun m r => mapInsert m r.s3Key r) store

/-- Outcome of one `FlushBatch` call: its return value, the batch buffer
and store contents afterwards, and whether `ReadAllRecords` /
`WriteRecords` were invoked at all. -/
structure FlushResult where
  result : Except StoreErr Unit
  buffer : List FileRecord
  store : RecordMap
  didRead : Bool
  didWrite : Bool
deriving DecidableEq, Repr

/-- `FlushBatch` from parquet.go.  `readOk` / `writeOk` inject the possible
I/O failures of `ReadAllRecords` / `WriteRecords`; a failed write is
modelled as leaving the store unchanged (no claim relies on the store
contents after a failed write).  The buffer is cleared
(`db.batchBuffer = db.batchBuffer[:0]`) only after a successful write. -/
def flushBatch (readOk writeOk : Bool) (buffer : List FileRecord)
    (store : RecordMap) : FlushResult :=
  if buffer.length = 0 then
    ⟨.ok (), buffer, store, false, false⟩
  else if readOk = false then
    ⟨.error .readErr, buffer, store, true, false⟩
  else if writeOk = false then
    ⟨.error .writeErr, buffer, store, true, true⟩
  else
    ⟨.ok (), [], applyBatch store buffer, true, true⟩

/-- Outcome of one `BatchUpdate` call. -/
structure BatchResult where
  result : Except StoreErr Unit
  buffer : List FileRecord
  store : RecordMap
deriving DecidableEq, Repr

/-- `BatchUpdate` from parquet.go: append the record to the batch buffer,
then flush if `len(db.batchBuffer) >= db.batchSize`. -/
def batchUpdate (readOk writeOk : Bool) (batchSize : Nat) (rec : FileRecord)
    (buffer : List FileRecord) (store : RecordMap) : BatchResult :=
  let buffer2 := buffer ++ [rec]
  if batchSize ≤ buffer2.length then
    let fr := flushBatch readOk writeOk buffer2 store
    ⟨fr.result, fr.buffer, fr.store⟩
  else
    ⟨.ok (), buffer2, store⟩

/-- The inclusion test of `getFilesToDownload`: download when no local
record exists for the key, or when `record.ETag != *s3File.ETag`. -/
def needsDownload (localRecords : RecordMap) (f : S3Object) : Bool :=
  match mapLookup localRecords f.key with
  | some record => record.eTag != f.eTag
  | none => true

/-- `getFilesToDownload` from syncer.go: the loop accumulating every S3
object that is absent locally or whose ETag differs. -/
def getFilesToDownload (s3Files : List S3Object) (localRecords : RecordMap) :
    List S3Object :=
  s3Files.foldl
    (fun toDownload f =>
      if needsDownload localRecords f then toDownload ++ [f] else toDownload)
    []

/-- The `FileRecord` a download worker enqueues for an item: ETag and
modification time copied from the descriptor, status `downloaded` or
`failed` depending on the fetch outcome (`fetchOk`), local path from the
prefix-strip-and-join step (abstracted as `resolve`), `LastSyncedAt` from
the clock (`now`). -/
def mkUpdate (resolve : String → String) (fetchOk : S3Object → Bool)
    (now : Int) (f : S3Object) : FileRecord :=
  { s3Key := f.key
    eTag := f.eTag
    lastModified := f.lastModified
    syncStatus := if fetchOk f then "downloaded" else "failed"
    localPath := resolve f.key
    lastSyncedAt := now }

/-- One iteration of `downloadWorker`'s loop body acting on the shared
buffer/store state: fetch (outcome given by `fetchOk`), then
`db.BatchUpdate` with the resulting status; the worker ignores
`BatchUpdate`'s returned error. -/
def processItem (resolve : String → String) (fetchOk : S3Object → Bool)
    (readOk writeOk : Bool) (batchSize : Nat) (now : Int)
    (st : List FileRecord × RecordMap) (f : S3Object) :
    List FileRecord × RecordMap :=
  let b := batchUpdate readOk writeOk batchSize
    (mkUpdate resolve fetchOk now f) st.1 st.2
  (b.buffer, b.store)

/-- Buffer and store after the transfer pipeline drains `items` in queue
order, starting from an empty batch buffer. -/
def pipelineState (resolve : String → String) (fetchOk : S3Object → Bool)
    (readOk writeOk : Bool) (batchSize : Nat) (now : Int)
    (items : List S3Object) (store0 : RecordMap) :
    List FileRecord × RecordMap :=
  items.foldl (processItem resolve fetchOk readOk writeOk batchSize now)
    ([], store0)

/-- Outcome of `Syncer.Run`: its return value, the final store and batch
buffer, and whether the worker pool was started. -/
structure RunResult where
  result : Except String Unit
  store : RecordMap
  buffer : List FileRecord
  workersStarted : Bool
deriving DecidableEq, Repr

/-- `Syncer.Run` from syncer.go: list S3 (result injected as `listing`),
read the local database (`snapshotOk` injects the I/O outcome; on success
the snapshot is the store contents `store0`), diff, return nil early when
nothing needs downloading, otherwise drain the plan through the workers
and issue one final `FlushBatch` whose error is only logged. -/
def syncerRun (listing : Except String (List S3Object)) (snapshotOk : Bool)
    (store0 : RecordMap) (resolve : String → String)
    (fetchOk : S3Object → Bool) (readOk writeOk : Bool) (batchSize : Nat)
    (now : Int) : RunResult :=
  match listing with
  | .error e => ⟨.error ("failed to list S3 files: " ++ e), store0, [], false⟩
  | .ok s3Files =>
    if snapshotOk then
      let filesToDownload := getFilesToDownload s3Files store0
      if filesToDownload.length = 0 then
        ⟨.ok (), store0, [], false⟩
      else
        let st := pipelineState resolve fetchOk readOk writeOk batchSize now
          filesToDownload store0
        let fr := flushBatch readOk writeOk st.1 st.2
        ⟨.ok (), fr.store, fr.buffer, true⟩
    else
      ⟨.error "failed to read local database", store0, [], false⟩

/-- The last element of `updates` whose key is `k`, if any: the record that
wins the `FlushBatch` merge for that key. -/
def lastUpd : List FileRecord → String → Option FileRecord
  | [], _ => none
  | u :: us, k =>
    match lastUpd us k with
    | some v => some v
    | none => if u.s3Key = k then some u else none

/-!
Interleaving model of the unsynchronized buffer append.  The Go struct
`ParquetDB` has no mutex, so the statement
`db.batchBuffer = append(db.batchBuffer, record)` executed by a worker
goroutine is a read of the shared slice header followed by a write of
the extended slice; two workers running `BatchUpdate` concurrently may
both read before either writes.  We model one worker's append as the
two-step program (load shared buffer, then store its local append) and
execute explicit schedules over two workers.
-/

/-- One worker midway through the unsynchronized append in `BatchUpdate`:
its record, the snapshot of the shared buffer it has loaded (if any), and
whether it has written back. -/
structure ApndWorker where
  record : FileRecord
  loaded : Option (List FileRecord)
  done : Bool
deriving DecidableEq, Repr

/-- Advance one worker by one step against the shared buffer: first step
loads the shared buffer, second step stores back its local append. -/
def apndStep (shared : List FileRecord) (w : ApndWorker) :
    List FileRecord × ApndWorker :=
  match w.loaded with
  | none => (shared, { w with loaded := some shared })
  | some buf =>
    if w.done then (shared, w)
    else (buf ++ [w.record], { w with done := true })

/-- Shared buffer plus two concurrent workers. -/
structure RaceState where
  shared : List FileRecord
  wA : ApndWorker
  wB : ApndWorker
deriving DecidableEq, Repr

/-- Run one step of the chosen worker (`true` = `wA`, `false` = `wB`). -/
def raceStep (tid : Bool) (s : RaceState) : RaceState :=
  if tid then
    let r := apndStep s.shared s.wA
    ⟨r.1, r.2, s.wB⟩
  else
    let r := apndStep s.shared s.wB
    ⟨r.1, s.wA, r.2⟩

/-- Execute an interleaving schedule from a starting state. -/
def raceRun (sched : List Bool) (s : RaceState) : RaceState :=
  sched.foldl (fun st tid => raceStep tid st) s

/-- Two distinct records enqueued by two workers, and the race start state
with an empty shared buffer. -/
def raceRec (k : String) : FileRecord :=
  { s3Key := k, eTag := "e", lastModified := 0, syncStatus := "downloaded"
    localPath := "p", lastSyncedAt := 0 }

/-- Initial state: empty shared buffer, neither worker has loaded. -/
def raceInit : RaceState :=
  ⟨[], ⟨raceRec "a", none, false⟩, ⟨raceRec "b", none, false⟩⟩

/-!
Interleaving model of the unlocked threshold check.  Even granting an
atomic buffer append (the append's own internal race is the subject of
the model above), `BatchUpdate` performs the append and the
`if len(db.batchBuffer) >= db.batchSize \x7b return db.FlushBatch() \x7d`
step as two separate operations with no mutex in between, so another
worker may append to the buffer after it has reached the batch size and
before any flush runs.
-/

/-- One worker midway through `BatchUpdate`: `pc = 0` before the buffer
append, `pc = 1` after the append but before the threshold check and
possible flush, `pc = 2` done. -/
structure BatchWorker where
  record : FileRecord
  pc : Nat
deriving DecidableEq, Repr

/-- Shared `ParquetDB` state — buffer, store contents and a count of
completed flush writes — together with two workers each running one
`BatchUpdate`. -/
structure BatchRace where
  buffer : List FileRecord
  store : RecordMap
  flushes : Nat
  uA : BatchWorker
  uB : BatchWorker
deriving DecidableEq, Repr

/-- Advance one worker by one step of `BatchUpdate`: the first step
appends its record to the shared buffer, the second step runs the
threshold check and, when the buffer has reached the batch size, the
flush (read-merge-rewrite, clear, counted in `flushes`). -/
def batchStep (batchSize : Nat) (w : BatchWorker) (buffer : List FileRecord)
    (store : RecordMap) (flushes : Nat) :
    List FileRecord × RecordMap × Nat × BatchWorker :=
  match w.pc with
  | 0 => (buffer ++ [w.record], store, flushes, { w with pc := 1 })
  | 1 =>
    if batchSize ≤ buffer.length then
      ([], applyBatch store buffer, flushes + 1, { w with pc := 2 })
    else
      (buffer, store, flushes, { w with pc := 2 })
  | _ => (buffer, store, flushes, w)

/-- Run one `BatchUpdate` step of the chosen worker (`true` = `uA`). -/
def batchRaceStep (batchSize : Nat) (tid : Bool) (s : BatchRace) :
    BatchRace :=
  if tid then
    let r := batchStep batchSize s.uA s.buffer s.store s.flushes
    ⟨r.1, r.2.1, r.2.2.1, r.2.2.2, s.uB⟩
  else
    let r := batchStep batchSize s.uB s.buffer s.store s.flushes
    ⟨r.1, r.2.1, r.2.2.1, s.uA, r.2.2.2⟩

/-- Initial state: empty buffer and store, no flushes, both workers about
to append. -/
def batchRaceInit : BatchRace :=
  ⟨[], [], 0, ⟨raceRec "a", 0⟩, ⟨raceRec "b", 0⟩⟩

/-! Basic lemmas about the record-map operations. -/

theorem keys_nil : keys ([] : RecordMap) = [] :=
  rfl

theorem keys_cons (p : String × FileRecord) (rest : RecordMap) :
    keys (p :: rest) = p.1 :: keys rest :=
  rfl

theorem mapLookup_mapInsert (m : RecordMap) (k j : String) (v : FileRecord) :
    mapLookup (mapInsert m k v) j = if j = k then some v else mapLookup m j := by
  induction m with
  | nil =>
    by_cases h : j = k
    · simp [mapInsert, mapLookup, h]
    · have hk : ¬ (k = j) := fun hk => h hk.symm
      simp [mapInsert, mapLookup, h, hk]
  | cons p rest ih =>
    by_cases h : p.1 = k
    · by_cases hj : j = k
      · simp [mapInsert, mapLookup, h, hj]
      · have hkj : ¬ (k = j) := fun hk => hj hk.symm
        have hpj : ¬ (p.1 = j) := fun hp => hj ((h.symm.trans hp).symm)
        simp [mapInsert, mapLookup, h, hj, hkj, hpj]
    · by_cases hp : p.1 = j
      · have hj : ¬ (j = k) := fun hjk => h (hp.trans hjk)
        simp [mapInsert, mapLookup, h, hp, hj]
      · simp [mapInsert, mapLookup, h, hp, ih]

theorem mapLookup_eq_none_iff (m : RecordMap) (k : String) :
    mapLookup m k = none ↔ k ∉ keys m := by
  induction m with
  | nil => simp [mapLookup, keys_nil]
  | cons p rest ih =>
    by_cases h : p.1 = k
    · simp [mapLookup, h, keys_cons]
    · have hkp : ¬ (k = p.1) := fun hk => h hk.symm
      simp [mapLookup, h, keys_cons, hkp, ih]

theorem keys_mapInsert (m : RecordMap) (k : String) (v : FileRecord) :
    keys (mapInsert m k v) =
      if k ∈ keys m then keys m else keys m ++ [k] := by
  induction m with
  | nil => simp [mapInsert, keys_nil, keys_cons]
  | cons p rest ih =>
    by_cases h : p.1 = k
    · simp [mapInsert, h, keys_cons]
    · have hkp : ¬ (k = p.1) := fun hk => h hk.symm
      by_cases hm : k ∈ keys rest <;>
        simp [mapInsert, h, keys_cons, hkp, hm, ih]

theorem nodup_keys_mapInsert (m : RecordMap) (k : String) (v : FileRecord)
    (h : (keys m).Nodup) : (keys (mapInsert m k v)).Nodup := by
  rw [keys_mapInsert]
  by_cases hm : k ∈ keys m
  · simpa [hm] using h
  · simp only [hm, if_false]
    refine List.Nodup.append h (List.nodup_singleton k) ?_
    intro a ha hak
    rw [List.mem_singleton] at hak
    exact hm (hak ▸ ha)

theorem applyBatch_cons (store : RecordMap) (u : FileRecord)
    (us : List FileRecord) :
    applyBatch store (u :: us) = applyBatch (mapInsert store u.s3Key u) us :=
  rfl

theorem applyBatch_append (store : RecordMap) (us vs : List FileRecord) :
    applyBatch store (us ++ vs) = applyBatch (applyBatch store us) vs := by
  simp [applyBatch, List.foldl_append]

theorem mapLookup_applyBatch (store : RecordMap) (us : List FileRecord)
    (k : String) :
    mapLookup (applyBatch store us) k =
      match lastUpd us k with
      | some u => some u
      | none => mapLookup store k := by
  induction us generalizing store with
  | nil => rfl
  | cons u us ih =>
    rw [applyBatch_cons, ih]
    cases h : lastUpd us k with
    | some v => simp [lastUpd, h]
    | none =>
      rw [mapLookup_mapInsert]
      by_cases hk : u.s3Key = k
      · simp [lastUpd, h, hk]
      · have : k ≠ u.s3Key := fun hkk => hk hkk.symm
        simp [lastUpd, h, hk, this]

theorem mem_keys_applyBatch (store : RecordMap) (us : List FileRecord)
    (j : String) :
    j ∈ keys (applyBatch store us) ↔
      j ∈ keys store ∨ j ∈ us.map FileRecord.s3Key := by
  induction us generalizing store with
  | nil => simp [applyBatch]
  | cons u us ih =>
    rw [applyBatch_cons, ih, keys_mapInsert]
    by_cases hm : u.s3Key ∈ keys store
    · by_cases hj : j = u.s3Key
      · simp [hm, hj]
      · simp [hm, hj]
    · by_cases hj : j = u.s3Key
      · simp [hm, hj]
      · simp [hm, hj]

theorem nodup_keys_applyBatch (store : RecordMap) (us : List FileRecord)
    (h : (keys store).Nodup) : (keys (applyBatch store us)).Nodup := by
  induction us generalizing store with
  | nil => exact h
  | cons u us ih =>
    rw [applyBatch_cons]
    exact ih _ (nodup_keys_mapInsert _ _ _ h)

/-! Lemmas about the planner. -/

theorem getFilesToDownload_eq_filter (s3Files : List S3Object)
    (localRecords : RecordMap) :
    getFilesToDownload s3Files localRecords =
      s3Files.filter (needsDownload localRecords) := by
  have key : ∀ (l : List S3Object) (acc : List S3Object),
      l.foldl
        (fun toDownload f =>
          if needsDownload localRecords f then toDownload ++ [f]
          else toDownload) acc
        = acc ++ l.filter (needsDownload localRecords) := by
    intro l
    induction l with
    | nil => simp
    | cons f l ih =>
      intro acc
      by_cases h : needsDownload localRecords f <;>
        simp [h, ih, List.filter_cons]
  simpa [getFilesToDownload] using key s3Files []

theorem needsDownload_iff (m : RecordMap) (f : S3Object) :
    needsDownload m f = true ↔
      (mapLookup m f.key = none ∨
        ∃ r, mapLookup m f.key = some r ∧ r.eTag ≠ f.eTag) := by
  unfold needsDownload
  cases h : mapLookup m f.key with
  | none => simp [h]
  | some r => simp [h, bne_iff_ne]

theorem mem_getFilesToDownload (s3Files : List S3Object) (m : RecordMap)
    (f : S3Object) :
    f ∈ getFilesToDownload s3Files m ↔
      f ∈ s3Files ∧ needsDownload m f = true := by
  rw [getFilesToDownload_eq_filter]
  simp [List.mem_filter]

theorem needsDownload_eq_false_iff (m : RecordMap) (f : S3Object) :
    needsDownload m f = false ↔
      ∃ r, mapLookup m f.key = some r ∧ r.eTag = f.eTag := by
  unfold needsDownload
  cases h : mapLookup m f.key with
  | none => simp [h]
  | some r => simp [h, bne_eq_false_iff_eq]

/-! Lemmas about the successful flush path. -/

theorem flushBatch_ok_result (b : List FileRecord) (s : RecordMap) :
    (flushBatch true true b s).result = .ok () := by
  by_cases h : b.length = 0 <;> simp [flushBatch, h]

theorem flushBatch_ok_buffer (b : List FileRecord) (s : RecordMap) :
    (flushBatch true true b s).buffer = [] := by
  by_cases h : b.length = 0
  · simp [flushBatch, h, List.length_eq_zero.mp h]
  · simp [flushBatch, h]

theorem flushBatch_ok_store (b : List FileRecord) (s : RecordMap) :
    (flushBatch true true b s).store = applyBatch s b := by
  by_cases h : b.length = 0
  · simp [flushBatch, h, List.length_eq_zero.mp h, applyBatch]
  · simp [flushBatch, h]

/-- The batch path preserves the virtual store (store overlaid with the
pending buffer): one `BatchUpdate`, whether or not it triggers a flush,
extends the virtual store by exactly its record. -/
theorem processItem_virtual (resolve : String → String)
    (fetchOk : S3Object → Bool) (batchSize : Nat) (now : Int)
    (st : List FileRecord × RecordMap) (f : S3Object) :
    applyBatch (processItem resolve fetchOk true true batchSize now st f).2
        (processItem resolve fetchOk true true batchSize now st f).1
      = applyBatch st.2 (st.1 ++ [mkUpdate resolve fetchOk now f]) := by
  unfold processItem batchUpdate
  by_cases h : batchSize ≤ st.1.length + 1
  · simp [h, flushBatch_ok_buffer, flushBatch_ok_store, applyBatch]
  · simp [h]

/-- Draining items through the batch path keeps the virtual store equal to
the starting virtual store overlaid with every enqueued update, in queue
order. -/
theorem foldl_processItem_virtual (resolve : String → String)
    (fetchOk : S3Object → Bool) (batchSize : Nat) (now : Int)
    (items : List S3Object) :
    ∀ st : List FileRecord × RecordMap,
      applyBatch
          (items.foldl (processItem resolve fetchOk true true batchSize now)
            st).2
          (items.foldl (processItem resolve fetchOk true true batchSize now)
            st).1
        = applyBatch (applyBatch st.2 st.1)
            (items.map (mkUpdate resolve fetchOk now)) := by
  induction items with
  | nil => intro st; rfl
  | cons f items ih =>
    intro st
    rw [List.foldl_cons, ih, processItem_virtual, List.map_cons,
      applyBatch_cons, applyBatch_append]
    rfl

/-- On the successful-store path the batch buffer never reaches the batch
size: the append that hits the threshold flushes in the same
`BatchUpdate` call, before any further append. -/
theorem foldl_processItem_bufferLT (resolve : String → String)
    (fetchOk : S3Object → Bool) (batchSize : Nat) (now : Int)
    (hbs : 1 ≤ batchSize) (items : List S3Object) :
    ∀ st : List FileRecord × RecordMap, st.1.length < batchSize →
      ((items.foldl (processItem resolve fetchOk true true batchSize now)
        st).1).length < batchSize := by
  induction items with
  | nil => intro st h; exact h
  | cons f items ih =>
    intro st h
    rw [List.foldl_cons]
    apply ih
    unfold processItem batchUpdate
    by_cases hb : batchSize ≤ st.1.length + 1
    · simpa [hb, flushBatch_ok_buffer] using hbs
    · simpa [hb] using Nat.lt_of_not_le hb

/-! Lemmas about `lastUpd`. -/

theorem lastUpd_mem (us : List FileRecord) (k : String) (u : FileRecord)
    (h : lastUpd us k = some u) : u ∈ us ∧ u.s3Key = k := by
  induction us with
  | nil => simp [lastUpd] at h
  | cons w us ih =>
    unfold lastUpd at h
    cases hw : lastUpd us k with
    | some v =>
      rw [hw] at h
      simp only [Option.some.injEq] at h
      obtain ⟨hv, hvk⟩ := ih (hw.trans (by rw [h]))
      exact ⟨List.mem_cons_of_mem _ hv, hvk⟩
    | none =>
      rw [hw] at h
      by_cases hk : w.s3Key = k
      · rw [if_pos hk] at h
        obtain rfl := Option.some.inj h
        exact ⟨List.mem_cons_self _ _, hk⟩
      · rw [if_neg hk] at h
        exact absurd h (by simp)

theorem lastUpd_eq_none_iff (us : List FileRecord) (k : String) :
    lastUpd us k = none ↔ ∀ u ∈ us, u.s3Key ≠ k := by
  induction us with
  | nil => simp [lastUpd]
  | cons w us ih =>
    unfold lastUpd
    cases hw : lastUpd us k with
    | some v =>
      obtain ⟨hv, hvk⟩ := lastUpd_mem us k v hw
      exact iff_of_false (fun h => Option.noConfusion h)
        (fun hall => hall v (List.mem_cons_of_mem _ hv) hvk)
    | none =>
      by_cases hk : w.s3Key = k
      · constructor
        · intro h
          simp [hk] at h
        · intro hall
          exact absurd hk (hall w (List.mem_cons_self _ _))
      · constructor
        · intro _ u hu
          rcases List.mem_cons.mp hu with rfl | hu'
          · exact hk
          · exact (ih.mp hw) u hu'
        · intro _
          simp [hk]

/-- On the successful path the store a run leaves behind is the starting
store overlaid with one update per planned item, in plan order (this also
covers the empty-plan early return, where the overlay is empty). -/
theorem syncerRun_ok_store (s3Files : List S3Object) (store0 : RecordMap)
    (resolve : String → String) (fetchOk : S3Object → Bool)
    (batchSize : Nat) (now : Int) :
    (syncerRun (.ok s3Files) true store0 resolve fetchOk true true batchSize
        now).store
      = applyBatch store0
          ((getFilesToDownload s3Files store0).map
            (mkUpdate resolve fetchOk now)) := by
  by_cases hlen : (getFilesToDownload s3Files store0).length = 0
  · have hplan := List.length_eq_zero.mp hlen
    simp [syncerRun, hlen, hplan, applyBatch]
  · simp only [syncerRun, hlen, if_true, reduceIte]
    rw [flushBatch_ok_store]
    unfold pipelineState
    rw [foldl_processItem_virtual]
    rfl

/-! Concrete values used to instantiate theorems that carry hypotheses. -/

/-- A concrete record for witnesses. -/
def sampleRec : FileRecord :=
  { s3Key := "k", eTag := "e", lastModified := 1, syncStatus := "downloaded"
    localPath := "p", lastSyncedAt := 2 }

/-- A concrete same-key update with a different fingerprint. -/
def sampleRec2 : FileRecord :=
  { s3Key := "k", eTag := "e2", lastModified := 3, syncStatus := "failed"
    localPath := "p", lastSyncedAt := 4 }

/-- A concrete listing entry for witnesses. -/
def obj1 : S3Object := { key := "a", eTag := "e1", lastModified := 1 }

/-! The claims. -/

/-- Claim C1 (code_bug evidence): `ParquetDB` carries no mutex, so the
append `db.batchBuffer = append(db.batchBuffer, record)` run by two
concurrent workers is an unsynchronized read-modify-write.  Under the
schedule in which both workers load the shared buffer before either
stores back, both `BatchUpdate` appends complete and yet the shared
buffer holds a single record: worker A's update is silently lost, so
buffer append, threshold check and flush are not one atomic critical
section as the spec requires. -/
theorem batchBuffer_append_lost_update :
    (raceRun [true, false, true, false] raceInit).wA.done = true ∧
    (raceRun [true, false, true, false] raceInit).wB.done = true ∧
    (raceRun [true, false, true, false] raceInit).shared = [raceRec "b"] := by
  refine ⟨rfl, rfl, rfl⟩

/-- Claim C2: the planner includes a remote descriptor iff no record
exists for its key or the existing record's fingerprint (ETag) differs
from the descriptor's; all other descriptors are excluded. -/
theorem plan_inclusion_rule (s3Files : List S3Object)
    (localRecords : RecordMap) (f : S3Object) :
    f ∈ getFilesToDownload s3Files localRecords ↔
      f ∈ s3Files ∧
        (mapLookup localRecords f.key = none ∨
          ∃ r, mapLookup localRecords f.key = some r ∧ r.eTag ≠ f.eTag) := by
  rw [mem_getFilesToDownload, needsDownload_iff]

/-- Claim C3: when `FlushBatch` runs on a non-empty buffer, it succeeds
iff both the store read and the store write succeed; on failure the
buffered updates are retained unchanged for a later attempt, and the
buffer is cleared only after a successful rewrite. -/
theorem flushBatch_failure_retains (readOk writeOk : Bool)
    (buf : List FileRecord) (store : RecordMap) (hne : buf ≠ []) :
    ((flushBatch readOk writeOk buf store).result = .ok () ↔
        readOk = true ∧ writeOk = true) ∧
    ((flushBatch readOk writeOk buf store).result ≠ .ok () →
        (flushBatch readOk writeOk buf store).buffer = buf) ∧
    ((flushBatch readOk writeOk buf store).result = .ok () →
        (flushBatch readOk writeOk buf store).buffer = [] ∧
        (flushBatch readOk writeOk buf store).didWrite = true) := by
  have hlen : ¬ (buf.length = 0) := fun h => hne (List.length_eq_zero.mp h)
  cases readOk <;> cases writeOk <;> simp [flushBatch, hlen]

/-- Witness for C3: a read failure on a one-record buffer retains it. -/
theorem flushBatch_failure_retains_witness :
    ((flushBatch false true [sampleRec] []).result = .ok () ↔
        false = true ∧ true = true) ∧
    ((flushBatch false true [sampleRec] []).result ≠ .ok () →
        (flushBatch false true [sampleRec] []).buffer = [sampleRec]) ∧
    ((flushBatch false true [sampleRec] []).result = .ok () →
        (flushBatch false true [sampleRec] []).buffer = [] ∧
        (flushBatch false true [sampleRec] []).didWrite = true) :=
  flushBatch_failure_retains false true [sampleRec] [] (by decide)

/-- Claim C4 (code_bug evidence): the append and the threshold check plus
flush in `BatchUpdate` are two separate steps on a mutex-free `ParquetDB`,
so with batch size 1 the schedule where worker A appends (the buffer
reaches the batch size, no flush yet) and worker B then appends leaves the
buffer holding two updates with zero flushes performed: a further update
was appended after the threshold was reached and before any flush,
refuting the claimed flush-before-any-further-append discipline for
concurrent runs.  Under the critical section the spec requires, the
second append could not precede the flush. -/
theorem threshold_flush_not_before_next_append :
    (batchRaceStep 1 true batchRaceInit).buffer.length = 1 ∧
    (batchRaceStep 1 true batchRaceInit).flushes = 0 ∧
    (batchRaceStep 1 false
        (batchRaceStep 1 true batchRaceInit)).buffer.length = 2 ∧
    (batchRaceStep 1 false
        (batchRaceStep 1 true batchRaceInit)).flushes = 0 := by
  refine ⟨rfl, rfl, rfl, rfl⟩

/-- Claim C5: a successful batch flush persists exactly the snapshot
merged with the buffered updates by key — for every key the persisted
record is the last same-key update in the buffer if there is one,
otherwise the snapshot record; no key is removed, every buffered key is
present, and the key set stays duplicate-free (one record per distinct
key). -/
theorem flushBatch_merge_semantics (store : RecordMap)
    (buf : List FileRecord) (hnd : (keys store).Nodup) :
    (∀ k, mapLookup (flushBatch true true buf store).store k =
        match lastUpd buf k with
        | some u => some u
        | none => mapLookup store k) ∧
    (keys (flushBatch true true buf store).store).Nodup ∧
    (∀ k, k ∈ keys (flushBatch true true buf store).store ↔
        k ∈ keys store ∨ k ∈ buf.map FileRecord.s3Key) := by
  rw [flushBatch_ok_store]
  exact ⟨fun k => mapLookup_applyBatch store buf k,
    nodup_keys_applyBatch store buf hnd,
    fun k => mem_keys_applyBatch store buf k⟩

/-- Witness for C5: a same-key update overwrites the snapshot record. -/
theorem flushBatch_merge_semantics_witness :
    mapLookup (flushBatch true true [sampleRec2]
        [("k", sampleRec)]).store "k" = some sampleRec2 ∧
    (keys (flushBatch true true [sampleRec2] [("k", sampleRec)]).store).Nodup ∧
    ("k" ∈ keys (flushBatch true true [sampleRec2] [("k", sampleRec)]).store ↔
      "k" ∈ keys [("k", sampleRec)] ∨
        "k" ∈ [sampleRec2].map FileRecord.s3Key) :=
  have h := flushBatch_merge_semantics [("k", sampleRec)] [sampleRec2]
    (by decide)
  ⟨(h.1 "k").trans (by decide), h.2.1, h.2.2 "k"⟩

/-- Claim C6 counterexample: a remote descriptor with an empty fingerprint
whose stored record also has an empty fingerprint is NOT included in the
plan — the code compares fingerprints with plain string inequality, so an
empty remote fingerprint equal to the stored one is skipped, contradicting
the claim that it is always treated as distinct and re-transferred. -/
theorem empty_fingerprint_skipped :
    ({ key := "k", eTag := "", lastModified := 1 } : S3Object) ∉
      getFilesToDownload [{ key := "k", eTag := "", lastModified := 1 }]
        [("k", { s3Key := "k", eTag := "", lastModified := 1,
                 syncStatus := "downloaded", localPath := "p",
                 lastSyncedAt := 2 })] := by
  decide

/-- Claim C6 as amended: an empty remote fingerprint is compared like any
other string — a descriptor with an empty fingerprint is planned iff no
record exists for its key or the stored fingerprint is non-empty; when the
stored fingerprint is also empty the descriptor is excluded. -/
theorem empty_fingerprint_rule (s3Files : List S3Object) (m : RecordMap)
    (f : S3Object) (hfp : f.eTag = "") :
    f ∈ getFilesToDownload s3Files m ↔
      f ∈ s3Files ∧
        (mapLookup m f.key = none ∨
          ∃ r, mapLookup m f.key = some r ∧ r.eTag ≠ "") := by
  rw [mem_getFilesToDownload, needsDownload_iff, hfp]

/-- Witness for the amended C6: an empty-fingerprint descriptor with no
stored record. -/
theorem empty_fingerprint_rule_witness :
    ({ key := "k", eTag := "", lastModified := 1 } : S3Object) ∈
        getFilesToDownload
          [{ key := "k", eTag := "", lastModified := 1 }] [] ↔
      ({ key := "k", eTag := "", lastModified := 1 } : S3Object) ∈
          [({ key := "k", eTag := "", lastModified := 1 } : S3Object)] ∧
        (mapLookup []
            ({ key := "k", eTag := "", lastModified := 1 } : S3Object).key
              = none ∨
          ∃ r, mapLookup []
              ({ key := "k", eTag := "", lastModified := 1 } : S3Object).key
                = some r ∧ r.eTag ≠ "") :=
  empty_fingerprint_rule [{ key := "k", eTag := "", lastModified := 1 }] []
    { key := "k", eTag := "", lastModified := 1 } rfl

/-- Claim C7: `Run` returns an error iff the S3 listing or the local
database read fails — for every fetch-outcome assignment and every store
read/write fault pattern the run still returns success; and when the
computed plan is empty the run finishes successfully with the store
untouched, the buffer empty and no workers started. -/
theorem run_error_policy (listing : Except String (List S3Object))
    (snapshotOk : Bool) (store0 : RecordMap) (resolve : String → String)
    (fetchOk : S3Object → Bool) (readOk writeOk : Bool) (batchSize : Nat)
    (now : Int) :
    ((syncerRun listing snapshotOk store0 resolve fetchOk readOk writeOk
        batchSize now).result = .ok () ↔
      (∃ files, listing = .ok files) ∧ snapshotOk = true) ∧
    (∀ files, listing = .ok files → snapshotOk = true →
      getFilesToDownload files store0 = [] →
      syncerRun listing snapshotOk store0 resolve fetchOk readOk writeOk
          batchSize now = ⟨.ok (), store0, [], false⟩) := by
  cases listing with
  | error e =>
    constructor
    · simp [syncerRun]
    · intro files h
      exact absurd h (by simp)
  | ok files =>
    cases snapshotOk with
    | false =>
      constructor
      · simp [syncerRun]
      · intro files2 _ h
        exact absurd h (by simp)
    | true =>
      constructor
      · by_cases h : (getFilesToDownload files store0).length = 0 <;>
          simp [syncerRun, h]
      · intro files2 hf _ hplan
        obtain rfl : files2 = files := by
          injection hf with h2
          exact h2.symm
        simp [syncerRun, hplan]

/-- Witness for C7: an empty listing with a healthy snapshot. -/
theorem run_error_policy_witness :
    ((syncerRun (.ok []) true [] (fun s => s) (fun _ => true) true true 2
        0).result = .ok () ↔
      (∃ files, (Except.ok [] : Except String (List S3Object))
          = .ok files) ∧ true = true) ∧
    syncerRun (.ok []) true [] (fun s => s) (fun _ => true) true true 2 0
      = ⟨.ok (), [], [], false⟩ :=
  have h := run_error_policy (.ok []) true [] (fun s => s) (fun _ => true)
    true true 2 0
  ⟨h.1, h.2 [] rfl rfl rfl⟩

/-- Claim C8: after a complete successful run, every planned item's
outcome — downloaded or failed alike — is recorded with the remote
fingerprint, so a second run against the identical unchanged listing
(with key-distinct entries, as an S3 listing is) plans zero transfers;
in particular a key recorded `failed` with an unchanged remote fingerprint
is not re-planned. -/
theorem second_run_plans_nothing (s3Files : List S3Object)
    (store0 : RecordMap) (resolve : String → String)
    (fetchOk : S3Object → Bool) (batchSize : Nat) (now : Int)
    (hnd : (s3Files.map S3Object.key).Nodup) :
    getFilesToDownload s3Files
      (syncerRun (.ok s3Files) true store0 resolve fetchOk true true
        batchSize now).store = [] := by
  have hbase : ∀ f ∈ s3Files,
      needsDownload (applyBatch store0
        ((getFilesToDownload s3Files store0).map
          (mkUpdate resolve fetchOk now))) f = false := by
    intro f hf
    rw [needsDownload_eq_false_iff]
    have hlook := mapLookup_applyBatch store0
      ((getFilesToDownload s3Files store0).map (mkUpdate resolve fetchOk now))
      f.key
    cases hlu : lastUpd ((getFilesToDownload s3Files store0).map
        (mkUpdate resolve fetchOk now)) f.key with
    | some u =>
      rw [hlu] at hlook
      obtain ⟨humem, hukey⟩ := lastUpd_mem _ _ _ hlu
      obtain ⟨g, hg, rfl⟩ := List.mem_map.mp humem
      have hgmem : g ∈ s3Files :=
        ((mem_getFilesToDownload _ _ _).mp hg).1
      have hgk : g.key = f.key := hukey
      obtain rfl : g = f := List.inj_on_of_nodup_map hnd hgmem hf hgk
      exact ⟨mkUpdate resolve fetchOk now g, hlook, rfl⟩
    | none =>
      rw [hlu] at hlook
      have hnotplan : f ∉ getFilesToDownload s3Files store0 := by
        intro hfp
        exact ((lastUpd_eq_none_iff _ _).mp hlu) _
          (List.mem_map_of_mem _ hfp) rfl
      have hnd2 : needsDownload store0 f = false := by
        cases h : needsDownload store0 f
        · rfl
        · exact absurd
            ((mem_getFilesToDownload s3Files store0 f).mpr ⟨hf, h⟩) hnotplan
      obtain ⟨r, hr, hre⟩ := (needsDownload_eq_false_iff store0 f).mp hnd2
      exact ⟨r, hlook.trans hr, hre⟩
  rw [syncerRun_ok_store, getFilesToDownload_eq_filter]
  refine List.filter_eq_nil_iff.mpr (fun f hf => ?_)
  rw [hbase f hf]
  simp

/-- Witness for C8: one object whose fetch fails; its `failed` record
still carries the remote fingerprint, so the second diff is empty. -/
theorem second_run_plans_nothing_witness :
    getFilesToDownload [obj1]
      (syncerRun (.ok [obj1]) true [] (fun s => s) (fun _ => false) true
        true 2 0).store = [] :=
  second_run_plans_nothing [obj1] [] (fun s => s) (fun _ => false) 2 0
    (by decide)

/-- Claim C9: the plan is a subsequence of the remote listing — included
descriptors keep their relative listing order and each listing entry
contributes at most one plan entry. -/
theorem plan_sublist_of_listing (s3Files : List S3Object) (m : RecordMap) :
    List.Sublist (getFilesToDownload s3Files m) s3Files := by
  rw [getFilesToDownload_eq_filter]
  exact List.filter_sublist s3Files

/-- Claim C10: flushing an empty batch buffer is a no-op returning
success: the store is neither read nor written, its contents are
unchanged, and the buffer stays empty. -/
theorem flushBatch_empty_noop (readOk writeOk : Bool) (store : RecordMap) :
    flushBatch readOk writeOk [] store = ⟨.ok (), [], store, false, false⟩ :=
  rfl

end S3Export
